import Mathlib

/-!
Verification development for the `3D-Nft-viewer` repository
(`src/nft-viewer/src/components/NFTViewer.jsx`).

The component's decision logic is embedded shallowly:

* `ipfsToHttp` — the URL-normalization helper (JSX lines 33-41);
* the three render-dispatch regex tests (JSX lines 160-183);
* the metadata asset-field priority chain (JSX lines 130-136);
* the fetch effect with its `cancelled` flag, modelled as a small
  transition system over `ViewerState` (JSX lines 77-128);
* the quick-action click handlers (JSX lines 202-203).

JavaScript strings are modelled as `String`/`List Char`; JS truthiness of a
string is non-emptiness; an absent JSON field is `Option.none`.
-/

/-! ## Character-list primitives

JS `String.prototype.startsWith`, substring search, `replace` with a string
pattern (first occurrence only), and ASCII lowering for the `/i` regex flag. -/

/-- ASCII lower-casing of one character (the effect of the regex `/i` flag on
the ASCII-only patterns used by the component). -/
def lcChar (c : Char) : Char :=
  if 'A' ≤ c ∧ c ≤ 'Z' then Char.ofNat (c.toNat + 32) else c

/-- Lower-case a character list. -/
def lcList (l : List Char) : List Char := l.map lcChar

/-- `isPrefixL p l`: the list `p` occurs at the start of `l`
(JS `startsWith`). -/
def isPrefixL : List Char → List Char → Bool
  | [], _ => true
  | _ :: _, [] => false
  | p :: ps, c :: cs => p == c && isPrefixL ps cs

/-- `isSuffixL p l`: the list `p` occurs at the end of `l` (an anchored `$`
regex match). -/
def isSuffixL (p l : List Char) : Bool := isPrefixL p.reverse l.reverse

/-- `containsL p l`: `p` occurs contiguously somewhere in `l`
(an unanchored regex literal such as `image\/`). -/
def containsL (p : List Char) : List Char → Bool
  | [] => isPrefixL p []
  | c :: cs => isPrefixL p (c :: cs) || containsL p cs

/-- JS `String.prototype.replace` with a plain-string pattern: replace the
first occurrence of `pat` by `rep`, leave the string unchanged when `pat`
does not occur. -/
def replaceFirstL (pat rep : List Char) : List Char → List Char
  | [] => if isPrefixL pat [] then rep else []
  | c :: cs =>
    if isPrefixL pat (c :: cs) then rep ++ (c :: cs).drop pat.length
    else c :: replaceFirstL pat rep cs

/-! ## URL normalization (`ipfsToHttp`, JSX lines 33-41) -/

/-- The decentralized-storage scheme tested by `url.startsWith('ipfs://')`. -/
def ipfsScheme : List Char := "ipfs://".data

/-- The gateway base `'https://ipfs.io/ipfs/'` substituted for the scheme. -/
def gatewayBase : List Char := "https://ipfs.io/ipfs/".data

/-- Embedding of `ipfsToHttp` (JSX lines 33-41).  `if (!url) return url` is
the empty-string test (the only falsy string); the middle branch is
`url.replace('ipfs://', 'https://ipfs.io/ipfs/')`; the third test
(`url.includes('ipfs/') && url.startsWith('http')`) and the final fallthrough
both return the input unchanged. -/
def ipfsToHttp (url : String) : String :=
  if url = "" then url
  else if isPrefixL ipfsScheme url.data then
    String.mk (replaceFirstL ipfsScheme gatewayBase url.data)
  else if containsL "ipfs/".data url.data && isPrefixL "http".data url.data then url
  else url

/-! ## Render-dispatch regexes (JSX lines 160-183)

Three independent JSX conditions of the form `assetUrl && assetUrl.match(re)`.
`.` in the model-hint pattern `model\/(.*)gltf` does not match a newline. -/

/-- After the `model/` literal, the gap matched by `(.*)` (no newline) must be
followed by the literal `gltf`. -/
def gltfAfter : List Char → Bool
  | [] => false
  | c :: cs => isPrefixL "gltf".data (c :: cs) || (!(c == '\n') && gltfAfter cs)

/-- The unanchored alternative `model\/(.*)gltf` of the model regex. -/
def modelHint : List Char → Bool
  | [] => false
  | c :: cs =>
    (isPrefixL "model/".data (c :: cs) && gltfAfter ((c :: cs).drop 6))
    || modelHint cs

/-- `assetUrl.match(/\.gltf$|\.glb$|model\/(.*)gltf/i)` as a Bool. -/
def modelRegex (u : String) : Bool :=
  isSuffixL ".gltf".data (lcList u.data)
  || isSuffixL ".glb".data (lcList u.data)
  || modelHint (lcList u.data)

/-- `assetUrl.match(/\.png$|\.jpg$|\.jpeg$|\.webp$|image\//i)` as a Bool. -/
def imageRegex (u : String) : Bool :=
  isSuffixL ".png".data (lcList u.data)
  || isSuffixL ".jpg".data (lcList u.data)
  || isSuffixL ".jpeg".data (lcList u.data)
  || isSuffixL ".webp".data (lcList u.data)
  || containsL "image/".data (lcList u.data)

/-- The regex negated by the embed branch,
`/\.gltf$|\.glb$|\.png$|\.jpg$|\.jpeg$|\.webp$|image\//i` (note: it does not
contain the `model\/(.*)gltf` alternative of the model branch). -/
def embedGuardRegex (u : String) : Bool :=
  isSuffixL ".gltf".data (lcList u.data)
  || isSuffixL ".glb".data (lcList u.data)
  || isSuffixL ".png".data (lcList u.data)
  || isSuffixL ".jpg".data (lcList u.data)
  || isSuffixL ".jpeg".data (lcList u.data)
  || isSuffixL ".webp".data (lcList u.data)
  || containsL "image/".data (lcList u.data)

/-- JSX line 160: `assetUrl && assetUrl.match(model regex)`. -/
def rendersModel (u : String) : Bool := !(u == "") && modelRegex u

/-- JSX line 164: `assetUrl && assetUrl.match(image regex)`. -/
def rendersImage (u : String) : Bool := !(u == "") && imageRegex u

/-- JSX line 177: `assetUrl && !assetUrl.match(guard regex)`. -/
def rendersEmbed (u : String) : Bool := !(u == "") && !(embedGuardRegex u)

/-! ## Metadata and the asset-field priority chain (JSX lines 130-136) -/

/-- The metadata JSON document, modelled by its conventionally-named optional
string fields.  A field absent from the document is `none`; the open-ended
remainder of the document (e.g. `attributes`) plays no part in asset
resolution. -/
structure Metadata where
  name : Option String := none
  description : Option String := none
  animation_url : Option String := none
  image : Option String := none
  image_url : Option String := none
  asset : Option String := none
  animation : Option String := none
deriving DecidableEq

/-- JS truthiness of an optional string field: `undefined` and `''` are
falsy, every other string is truthy. -/
def jsTruthy : Option String → Bool
  | none => false
  | some s => !(s == "")

/-- JSX line 133: `[metadata.animation_url, metadata.image,
metadata.image_url, metadata.asset, metadata.animation]`. -/
def candidateFields (m : Metadata) : List (Option String) :=
  [m.animation_url, m.image, m.image_url, m.asset, m.animation]

/-- JSX line 134: `candidates.find(Boolean)` — the first truthy candidate,
or `none` when every candidate is absent or empty. -/
def firstCandidate (m : Metadata) : Option String :=
  ((candidateFields m).find? jsTruthy).join

/-! ## ViewerState and the fetch-effect transition system (JSX 73-136) -/

/-- The component state triple: `metadata` (`useState(null)`),
`assetUrl` (`useState('')`), `error` (`useState(null)`). -/
structure ViewerState where
  metadata : Option Metadata
  assetUrl : String
  error : Option String
deriving DecidableEq

/-- The state written by JSX lines 118-120:
`setMetadata(null); setAssetUrl(''); setError(null)`. -/
def resetState : ViewerState :=
  { metadata := none, assetUrl := "", error := none }

/-- The `[metadata]` effect (JSX lines 130-136): when metadata is present,
find the first truthy candidate field and, if there is one (`if (first)`),
set `assetUrl` to its normalization; otherwise leave the state alone. -/
def deriveAssetUrl (v : ViewerState) : ViewerState :=
  match v.metadata with
  | none => v
  | some m =>
    match firstCandidate m with
    | some f => if f = "" then v else { v with assetUrl := ipfsToHttp f }
    | none => v

/-- Outcome of one fetch (`axios.get` resolution or rejection). -/
inductive FetchResult where
  | success (m : Metadata)
  | failure (msg : String)
deriving DecidableEq

/-- The component plus the generation counter of fetch effects: `gen` counts
the requests issued so far; the live effect instance is number `gen`, and an
instance `i < gen` is one whose cleanup already ran (`cancelled = true`). -/
structure Sys where
  viewer : ViewerState
  gen : Nat
deriving DecidableEq

/-- Mount-time state: no request issued, fields at their `useState`
defaults. -/
def initSys : Sys := { viewer := resetState, gen := 0 }

/-- Issuing a new AssetRequest: React runs the previous effect's cleanup
(setting its closure's `cancelled` flag — here, the old generation number
stops being current) and then the new effect body, which resets all three
state fields (JSX lines 118-120) before starting its fetch. -/
def issue (s : Sys) : Sys :=
  { viewer := resetState, gen := s.gen + 1 }

/-- Completion of instance `i`'s fetch (JSX lines 96-102 / 109-115).  On
success the code runs `if (cancelled) return; setMetadata(res.data)` — so a
superseded instance (`i ≠ gen`) writes nothing — and the `[metadata]` effect
then derives `assetUrl`.  On failure the `catch` block runs
`setError(err.message)` with no `cancelled` check. -/
def complete (s : Sys) (i : Nat) (r : FetchResult) : Sys :=
  match r with
  | .success m =>
    if i = s.gen then
      { s with viewer := deriveAssetUrl { s.viewer with metadata := some m } }
    else s
  | .failure msg =>
    { s with viewer := { s.viewer with error := some msg } }

/-- An externally visible event of the effect system. -/
inductive Event where
  | issue
  | complete (i : Nat) (r : FetchResult)

/-- A system state instrumented with the log of instances whose fetch has
already finished (each instance performs exactly one fetch, so it can
complete at most once). -/
structure World where
  sys : Sys
  completedL : List Nat
deriving DecidableEq

/-- The mounted component before any request. -/
def initWorld : World := { sys := initSys, completedL := [] }

/-- Event application. -/
def wstep (w : World) : Event → World
  | .issue => { sys := issue w.sys, completedL := w.completedL }
  | .complete i r => { sys := complete w.sys i r, completedL := i :: w.completedL }

/-- Validity of an event: a completion must belong to an instance that was
actually issued (`1 ≤ i ≤ gen`) and whose single fetch has not already
finished. -/
def validStepB (w : World) : Event → Bool
  | .issue => true
  | .complete i _ => decide (1 ≤ i) && decide (i ≤ w.sys.gen) && !(w.completedL.contains i)

/-- Reachable instrumented states of the fetch-effect system. -/
inductive Reachable : World → Prop where
  | init : Reachable initWorld
  | step (w : World) (e : Event) : Reachable w → validStepB w e = true →
      Reachable (wstep w e)

/-- The asset URL the spec's invariant demands for a given metadata value:
empty when metadata is absent or has no truthy asset field, otherwise the
normalized first truthy field. -/
def expectedAssetUrl : Option Metadata → String
  | none => ""
  | some m =>
    match firstCandidate m with
    | some f => if f = "" then "" else ipfsToHttp f
    | none => ""

/-- The invariant carried through the reachability induction: `assetUrl` is
the derivation of the current `metadata`, and a non-absent `metadata` means
the current effect instance's single fetch has already finished. -/
def invHolds (w : World) : Prop :=
  w.sys.viewer.assetUrl = expectedAssetUrl w.sys.viewer.metadata
  ∧ (w.sys.viewer.metadata ≠ none → w.completedL.contains w.sys.gen = true)

/-! ## Metadata-acquisition functions (JSX lines 80-116) -/

/-- The effect one fetch function has on ViewerState: no write, a metadata
write (followed by asset derivation), or an error write. -/
inductive FetchOutcome where
  | noWrite
  | wroteMetadata (m : Metadata)
  | wroteError (msg : String)
deriving DecidableEq

/-- The message of the `throw new Error(...)` at JSX line 90. -/
def noProviderMsg : String :=
  "No provider available — provide providerUrl or connect MetaMask"

/-- The tail of `fetchFromContract` shared by both provider branches
(JSX lines 93-98): call `tokenURI`, normalize, GET, then
`if (cancelled) return; setMetadata(res.data)`.  The outcomes of the two
external calls are parameters (`tokenUriRes`, `httpGetRes`); a rejection of
either is caught by the surrounding `catch`, which writes `err.message`. -/
def contractCallTail (tokenId : String) (tokenUriRes : String → Except String String)
    (httpGetRes : String → Except String Metadata) (cancelled : Bool) : FetchOutcome :=
  match tokenUriRes tokenId with
  | .error e => .wroteError e
  | .ok uri =>
    match httpGetRes (ipfsToHttp uri) with
    | .error e => .wroteError e
    | .ok m => if cancelled then .noWrite else .wroteMetadata m

/-- Embedding of `fetchFromContract` (JSX lines 80-103).  The guard
`if (!contractAddress || !tokenId) return;` comes first; then the provider
choice: a non-empty `providerUrl` selects the JSON-RPC provider, else a
browser-injected wallet (`window.ethereum`) selects the Web3 provider, else
`throw new Error(noProviderMsg)` — caught by the `catch`, which runs
`setError(err.message)`. -/
def fetchFromContract (contractAddress tokenId providerUrl : String)
    (hasInjectedWallet : Bool) (tokenUriRes : String → Except String String)
    (httpGetRes : String → Except String Metadata) (cancelled : Bool) : FetchOutcome :=
  if contractAddress = "" ∨ tokenId = "" then .noWrite
  else if providerUrl ≠ "" then
    contractCallTail tokenId tokenUriRes httpGetRes cancelled
  else if hasInjectedWallet then
    contractCallTail tokenId tokenUriRes httpGetRes cancelled
  else .wroteError noProviderMsg

/-- Embedding of `fetchFromMetadataUrl` (JSX lines 105-116):
`if (!metadataUrl) return;` then normalize, GET, and
`if (cancelled) return; setMetadata(res.data)`; a rejection is caught and
written as `err.message`. -/
def fetchFromMetadataUrl (metadataUrl : String)
    (httpGetRes : String → Except String Metadata) (cancelled : Bool) : FetchOutcome :=
  if metadataUrl = "" then .noWrite
  else
    match httpGetRes (ipfsToHttp metadataUrl) with
    | .error e => .wroteError e
    | .ok m => if cancelled then .noWrite else .wroteMetadata m

/-- Apply a fetch outcome to the component state: `setMetadata` (with the
subsequent `[metadata]` derivation effect), `setError`, or nothing. -/
def applyOutcome (v : ViewerState) : FetchOutcome → ViewerState
  | .noWrite => v
  | .wroteMetadata m => deriveAssetUrl { v with metadata := some m }
  | .wroteError e => { v with error := some e }

/-! ## Variant dispatch (JSX lines 122-123) -/

/-- The two acquisition variants of the spec. -/
inductive Variant where
  | directUrl
  | contractLookup
deriving DecidableEq

/-- JSX lines 122-123: `if (metadataUrl) fetchFromMetadataUrl(); else if
(contractAddress && tokenId) fetchFromContract();` — `none` when neither
branch fires. -/
def chooseVariant (metadataUrl contractAddress tokenId : String) : Option Variant :=
  if metadataUrl ≠ "" then some .directUrl
  else if contractAddress ≠ "" ∧ tokenId ≠ "" then some .contractLookup
  else none

/-! ## Quick-action click handlers (JSX lines 202-203) -/

/-- Browser side effects a click handler can request. -/
inductive BrowserAction where
  | clipboardWrite (s : String)
  | windowOpen (url : String) (target : String)
deriving DecidableEq

/-- JSX line 202: `navigator.clipboard?.writeText(assetUrl || '')` — the
optional chaining makes the call a no-op when the clipboard API is absent;
`assetUrl || ''` substitutes the empty string for a falsy URL. -/
def copyHandler (hasClipboard : Bool) (assetUrl : String) : List BrowserAction :=
  if hasClipboard then
    [.clipboardWrite (if assetUrl = "" then "" else assetUrl)]
  else []

/-- JSX line 203: `window.open(assetUrl, '_blank')`, unconditionally. -/
def openHandler (assetUrl : String) : List BrowserAction :=
  [.windowOpen assetUrl "_blank"]

/-! ## Helper lemmas about normalization -/

theorem isPrefixL_append_self (p r : List Char) : isPrefixL p (p ++ r) = true := by
  induction p with
  | nil => rfl
  | cons a as ih => simp [isPrefixL, ih]

theorem replaceFirstL_of_match (pat rep l : List Char) (h : isPrefixL pat l = true) :
    replaceFirstL pat rep l = rep ++ l.drop pat.length := by
  cases l with
  | nil =>
    cases pat with
    | nil =>
      unfold replaceFirstL
      rw [if_pos h]
      simp
    | cons p ps => exact absurd h (by simp [isPrefixL])
  | cons c cs =>
    unfold replaceFirstL
    rw [if_pos h]

theorem ipfsToHttp_of_not_scheme (u : String) (h : isPrefixL ipfsScheme u.data = false) :
    ipfsToHttp u = u := by
  unfold ipfsToHttp
  rcases eq_or_ne u "" with he | hne
  · rw [if_pos he]
  · rw [if_neg hne, if_neg (by simp [h])]
    exact ite_self u

theorem ipfsToHttp_of_scheme (u : String) (h : isPrefixL ipfsScheme u.data = true) :
    ipfsToHttp u = String.mk (gatewayBase ++ u.data.drop ipfsScheme.length) := by
  have hne : u ≠ "" := by
    intro he
    subst he
    exact absurd h (by decide)
  unfold ipfsToHttp
  rw [if_neg hne, if_pos h, replaceFirstL_of_match _ _ _ h]

theorem ipfs_rewrite (rest : List Char) :
    ipfsToHttp (String.mk (ipfsScheme ++ rest)) = String.mk (gatewayBase ++ rest) := by
  have h : isPrefixL ipfsScheme (String.mk (ipfsScheme ++ rest)).data = true :=
    isPrefixL_append_self ipfsScheme rest
  rw [ipfsToHttp_of_scheme _ h]
  have hd : (String.mk (ipfsScheme ++ rest)).data.drop ipfsScheme.length = rest :=
    List.drop_left ipfsScheme rest
  rw [hd]

theorem scheme_not_after_gateway (l : List Char) :
    isPrefixL ipfsScheme (gatewayBase ++ l) = false := rfl

/-! ## Claims C4 and C5 -/

/-- Claim C4: URL normalization maps every string of the form
`"ipfs://" ++ rest` to `"https://ipfs.io/ipfs/" ++ rest`, and returns every
other string — including the empty string and strings already containing
`"ipfs/"` under an HTTP scheme — unchanged. -/
theorem c4_normalization :
    (∀ rest : List Char,
      ipfsToHttp (String.mk (ipfsScheme ++ rest)) = String.mk (gatewayBase ++ rest))
    ∧ (∀ u : String, isPrefixL ipfsScheme u.data = false → ipfsToHttp u = u) :=
  ⟨ipfs_rewrite, ipfsToHttp_of_not_scheme⟩

/-- Witness for C4 at the spec's own examples. -/
theorem c4_normalization_witness :
    ipfsToHttp "ipfs://abc" = "https://ipfs.io/ipfs/abc"
    ∧ ipfsToHttp "https://x/ipfs/abc" = "https://x/ipfs/abc"
    ∧ ipfsToHttp "" = "" := by
  refine ⟨?_, ?_, ?_⟩
  · exact c4_normalization.1 "abc".data
  · exact c4_normalization.2 "https://x/ipfs/abc" (by decide)
  · exact c4_normalization.2 "" (by decide)

/-! ## Claims C2 and C10: render dispatch -/

/-- Claim C2 (amended): for every non-empty resolved URL at least one of the
three render paths is selected, and the flat-image and generic-embed paths
never co-occur; but the three conditions are independent JSX guards, not an
ordered mutually exclusive chain — the 3D-model path can co-occur with either
of the other two (see the counterexample). -/
theorem c2_classification_amended (u : String) (h : u ≠ "") :
    (rendersModel u = true ∨ rendersImage u = true ∨ rendersEmbed u = true)
    ∧ ¬(rendersImage u = true ∧ rendersEmbed u = true) := by
  have hne : (u == "") = false := by simp [h]
  constructor
  · cases hg : embedGuardRegex u with
    | false =>
      right; right
      simp [rendersEmbed, hne, hg]
    | true =>
      simp only [embedGuardRegex, Bool.or_eq_true] at hg
      rcases hg with ((((((h1 | h1) | h1) | h1) | h1) | h1) | h1)
      · exact Or.inl (by simp [rendersModel, modelRegex, hne, h1])
      · exact Or.inl (by simp [rendersModel, modelRegex, hne, h1])
      · exact Or.inr (Or.inl (by simp [rendersImage, imageRegex, hne, h1]))
      · exact Or.inr (Or.inl (by simp [rendersImage, imageRegex, hne, h1]))
      · exact Or.inr (Or.inl (by simp [rendersImage, imageRegex, hne, h1]))
      · exact Or.inr (Or.inl (by simp [rendersImage, imageRegex, hne, h1]))
      · exact Or.inr (Or.inl (by simp [rendersImage, imageRegex, hne, h1]))
  · rintro ⟨hi, he⟩
    simp only [rendersImage, hne, Bool.not_false, Bool.true_and] at hi
    simp only [rendersEmbed, hne, Bool.not_false, Bool.true_and,
      Bool.not_eq_true'] at he
    simp only [imageRegex, Bool.or_eq_true] at hi
    simp only [embedGuardRegex, Bool.or_eq_false_iff] at he
    rcases hi with ((((h1 | h1) | h1) | h1) | h1) <;> simp [h1] at he

/-- Counterexample to C2 as stated: the paths are not mutually exclusive —
a URL ending in `.glb` that also contains `image/` renders both the 3D-model
and the flat-image paths, and a URL carrying only the `model/...gltf` hint
renders both the 3D-model and the generic-embed paths (the embed guard's
regex lacks that alternative). -/
theorem c2_overlap_counterexample :
    rendersModel "https://h/image/x.glb" = true
    ∧ rendersImage "https://h/image/x.glb" = true
    ∧ rendersModel "https://h/model/x-gltf" = true
    ∧ rendersEmbed "https://h/model/x-gltf" = true := by
  refine ⟨?_, ?_, ?_, ?_⟩ <;> decide

/-- Witness for C2 (amended) at a URL matching no pattern. -/
theorem c2_classification_witness :
    (rendersModel "https://h/x.bin" = true ∨ rendersImage "https://h/x.bin" = true
      ∨ rendersEmbed "https://h/x.bin" = true)
    ∧ ¬(rendersImage "https://h/x.bin" = true ∧ rendersEmbed "https://h/x.bin" = true) :=
  c2_classification_amended "https://h/x.bin" (by decide)

/-- Claim C10: extension matching is anchored to the end of the URL — a
non-empty URL at whose end none of the recognized extensions occurs (even if
one occurs mid-string, e.g. before a query string), and which carries neither
an `image/` substring nor a `model/...gltf` hint, selects the generic-embed
path and neither the model nor the image path. -/
theorem c10_anchored_matching (u : String) (h0 : u ≠ "")
    (h1 : isSuffixL ".gltf".data (lcList u.data) = false)
    (h2 : isSuffixL ".glb".data (lcList u.data) = false)
    (h3 : isSuffixL ".png".data (lcList u.data) = false)
    (h4 : isSuffixL ".jpg".data (lcList u.data) = false)
    (h5 : isSuffixL ".jpeg".data (lcList u.data) = false)
    (h6 : isSuffixL ".webp".data (lcList u.data) = false)
    (h7 : containsL "image/".data (lcList u.data) = false)
    (h8 : modelHint (lcList u.data) = false) :
    rendersEmbed u = true ∧ rendersModel u = false ∧ rendersImage u = false := by
  have hne : (u == "") = false := by simp [h0]
  refine ⟨?_, ?_, ?_⟩ <;>
    simp [rendersEmbed, rendersModel, rendersImage, embedGuardRegex, modelRegex,
      imageRegex, hne, h1, h2, h3, h4, h5, h6, h7, h8]

/-- Witness for C10 at the claim's example `"https://h/a.png?x=1"`: the URL
contains `".png"` followed by a query string, so the anchored image regex
fails and the embed path is selected. -/
theorem c10_anchored_matching_witness :
    rendersEmbed "https://h/a.png?x=1" = true
    ∧ rendersModel "https://h/a.png?x=1" = false
    ∧ rendersImage "https://h/a.png?x=1" = false :=
  c10_anchored_matching "https://h/a.png?x=1" (by decide) (by decide) (by decide)
    (by decide) (by decide) (by decide) (by decide) (by decide) (by decide)

/-! ## Claim C3: asset-field priority -/

/-- Claim C3: the resolved raw asset field is the first truthy field in
priority order `animation_url` > `image` > `image_url` > `asset` >
`animation` (presence in the JS sense: the field exists and is non-empty,
per `candidates.find(Boolean)`); in particular for
`{image: "a.png", animation_url: "b.glb"}` the selected raw field is
`"b.glb"` and it classifies as a 3D model. -/
theorem c3_asset_priority :
    (∀ m : Metadata,
      firstCandidate m =
        if jsTruthy m.animation_url then m.animation_url
        else if jsTruthy m.image then m.image
        else if jsTruthy m.image_url then m.image_url
        else if jsTruthy m.asset then m.asset
        else if jsTruthy m.animation then m.animation
        else none)
    ∧ firstCandidate { image := some "a.png", animation_url := some "b.glb" } = some "b.glb"
    ∧ rendersModel "b.glb" = true := by
  refine ⟨?_, by decide, by decide⟩
  intro m
  cases h1 : jsTruthy m.animation_url <;> cases h2 : jsTruthy m.image <;>
    cases h3 : jsTruthy m.image_url <;> cases h4 : jsTruthy m.asset <;>
      cases h5 : jsTruthy m.animation <;>
        simp [firstCandidate, candidateFields, List.find?, Option.join,
          h1, h2, h3, h4, h5]

/-! ## The fetch-effect invariant (claims C1 and C6) -/

theorem deriveAssetUrl_metadata_spec (v : ViewerState) (m : Metadata)
    (hau : v.assetUrl = "") :
    (deriveAssetUrl { v with metadata := some m }).assetUrl = expectedAssetUrl (some m)
    ∧ (deriveAssetUrl { v with metadata := some m }).metadata = some m := by
  unfold deriveAssetUrl expectedAssetUrl
  cases hfc : firstCandidate m with
  | none => simp [hfc, hau]
  | some f =>
    by_cases hf : f = "" <;> simp [hfc, hf, hau]

theorem complete_success_current (s : Sys) (i : Nat) (m : Metadata) (h : i = s.gen) :
    complete s i (.success m)
      = { s with viewer := deriveAssetUrl { s.viewer with metadata := some m } } := by
  simp only [complete]
  rw [if_pos h]

theorem complete_success_stale (s : Sys) (i : Nat) (m : Metadata) (h : i ≠ s.gen) :
    complete s i (.success m) = s := by
  simp only [complete]
  rw [if_neg h]

theorem complete_failure_eq (s : Sys) (i : Nat) (e : String) :
    complete s i (.failure e) = { s with viewer := { s.viewer with error := some e } } := rfl

theorem inv_reachable (w : World) (h : Reachable w) : invHolds w := by
  induction h with
  | init => exact ⟨rfl, fun hc => absurd rfl hc⟩
  | step w e hr hv ih =>
    cases e with
    | issue => exact ⟨rfl, fun hc => absurd rfl hc⟩
    | complete i r =>
      simp only [validStepB, Bool.and_eq_true, Bool.not_eq_true',
        decide_eq_true_eq] at hv
      cases r with
      | success m =>
        by_cases hig : i = w.sys.gen
        · have hmd : w.sys.viewer.metadata = none := by
            by_contra hne
            have hc := ih.2 hne
            rw [hig, hc] at hv
            exact absurd hv.2 (by simp)
          have hau : w.sys.viewer.assetUrl = "" := by
            rw [ih.1, hmd]
            rfl
          have hstep : wstep w (.complete i (.success m))
              = { sys := { viewer := deriveAssetUrl { w.sys.viewer with metadata := some m },
                           gen := w.sys.gen },
                  completedL := i :: w.completedL } := by
            simp only [wstep, complete_success_current w.sys i m hig]
          rw [hstep]
          have hd := deriveAssetUrl_metadata_spec w.sys.viewer m hau
          refine ⟨?_, ?_⟩
          · show (deriveAssetUrl { w.sys.viewer with metadata := some m }).assetUrl
              = expectedAssetUrl (deriveAssetUrl { w.sys.viewer with metadata := some m }).metadata
            rw [hd.1, hd.2]
          · intro _
            show (i :: w.completedL).contains w.sys.gen = true
            rw [← hig, List.contains_cons]
            simp
        · have hstep : wstep w (.complete i (.success m))
              = { sys := w.sys, completedL := i :: w.completedL } := by
            simp only [wstep, complete_success_stale w.sys i m hig]
          rw [hstep]
          refine ⟨ih.1, ?_⟩
          intro hm
          show (i :: w.completedL).contains w.sys.gen = true
          rw [List.contains_cons, ih.2 hm]
          exact Bool.or_true _
      | failure msg =>
        have hstep : wstep w (.complete i (.failure msg))
            = { sys := { viewer := { w.sys.viewer with error := some msg },
                         gen := w.sys.gen },
                completedL := i :: w.completedL } := rfl
        rw [hstep]
        refine ⟨?_, ?_⟩
        · show w.sys.viewer.assetUrl = expectedAssetUrl w.sys.viewer.metadata
          exact ih.1
        · intro hm
          show (i :: w.completedL).contains w.sys.gen = true
          rw [List.contains_cons, ih.2 hm]
          exact Bool.or_true _

/-- Claim C6: in every reachable ViewerState, `assetUrl` equals the
derivation from the *current* metadata — the normalized first truthy asset
field, or the empty string when metadata is absent or has no truthy asset
field — never a stale value. -/
theorem c6_assetUrl_derived (w : World) (h : Reachable w) :
    w.sys.viewer.assetUrl = expectedAssetUrl w.sys.viewer.metadata :=
  (inv_reachable w h).1

/-- Witness for C6: one issued request whose fetch resolves with an
`ipfs://` image field. -/
theorem c6_assetUrl_derived_witness :
    (wstep (wstep initWorld .issue)
        (.complete 1 (.success { image := some "ipfs://Qm2/img.png" }))).sys.viewer.assetUrl
      = expectedAssetUrl (wstep (wstep initWorld .issue)
        (.complete 1 (.success { image := some "ipfs://Qm2/img.png" }))).sys.viewer.metadata :=
  c6_assetUrl_derived _
    (Reachable.step _ _ (Reachable.step _ _ Reachable.init (by decide)) (by decide))

/-! ## Claim C1: stale-response handling -/

/-- Counterexample to C1 as stated: request 1 is superseded by request 2 and
then completes with an error; the unguarded `catch` writes `err.message`, so
the final ViewerState carries request 1's error next to request 2's
metadata — it does not reflect only request 2's result. -/
theorem c1_stale_error_counterexample :
    Reachable (wstep (wstep (wstep (wstep initWorld .issue) .issue)
        (.complete 1 (.failure "boom"))) (.complete 2 (.success { image := some "a.png" })))
    ∧ (wstep (wstep (wstep (wstep initWorld .issue) .issue)
        (.complete 1 (.failure "boom"))) (.complete 2 (.success { image := some "a.png" }))).sys.viewer.error
      = some "boom"
    ∧ (wstep (wstep (wstep (wstep initWorld .issue) .issue)
        (.complete 1 (.failure "boom"))) (.complete 2 (.success { image := some "a.png" }))).sys.viewer.metadata
      = some { image := some "a.png" } := by
  refine ⟨?_, by decide, by decide⟩
  exact Reachable.step _ _
    (Reachable.step _ _
      (Reachable.step _ _ (Reachable.step _ _ Reachable.init (by decide)) (by decide))
      (by decide)) (by decide)

/-- Claim C1 (amended): a superseded request that completes *successfully*
writes nothing into ViewerState (`if (cancelled) return` precedes
`setMetadata`); but a superseded request that completes with an *error*
still writes its message into `ViewerState.error`, because the `catch`
handler does not consult the cancelled flag. -/
theorem c1_stale_suppression_amended (s : Sys) (i : Nat) (m : Metadata) (e : String)
    (h : i ≠ s.gen) :
    complete s i (.success m) = s
    ∧ complete s i (.failure e) = { s with viewer := { s.viewer with error := some e } } :=
  ⟨complete_success_stale s i m h, complete_failure_eq s i e⟩

/-- Witness for C1 (amended): generation 2 is current, instance 1 is
superseded. -/
theorem c1_stale_suppression_witness :
    complete (issue (issue initSys)) 1 (.success { image := some "a.png" })
      = issue (issue initSys)
    ∧ complete (issue (issue initSys)) 1 (.failure "boom")
      = { issue (issue initSys) with
          viewer := { (issue (issue initSys)).viewer with error := some "boom" } } :=
  c1_stale_suppression_amended (issue (issue initSys)) 1
    { image := some "a.png" } "boom" (by decide)

/-! ## Claim C7: acquisition errors -/

/-- Claim C7: contract lookup with neither a `providerUrl` nor an injected
wallet provider produces the no-provider error; every acquisition error
becomes a message string written into `ViewerState.error` (the model's
outcomes are total — nothing is rethrown), and an error write leaves
`metadata` untouched (hence absent, since the effect reset it to `null`
before fetching). -/
theorem c7_acquisition_errors :
    (∀ (ca tid : String) (tr : String → Except String String)
        (hr : String → Except String Metadata) (c : Bool),
      ca ≠ "" → tid ≠ "" →
        fetchFromContract ca tid "" false tr hr c = .wroteError noProviderMsg)
    ∧ (∀ (v : ViewerState) (msg : String),
        (applyOutcome v (.wroteError msg)).metadata = v.metadata
        ∧ (applyOutcome v (.wroteError msg)).error = some msg)
    ∧ (∀ (mu : String) (hr : String → Except String Metadata) (c : Bool) (e : String),
        mu ≠ "" → hr (ipfsToHttp mu) = .error e →
          fetchFromMetadataUrl mu hr c = .wroteError e) := by
  refine ⟨?_, ?_, ?_⟩
  · intro ca tid tr hr c hca htid
    unfold fetchFromContract
    rw [if_neg (not_or.mpr ⟨hca, htid⟩), if_neg (by simp), if_neg (by simp)]
  · intro v msg
    exact ⟨rfl, rfl⟩
  · intro mu hr c e hmu he
    unfold fetchFromMetadataUrl
    rw [if_neg hmu, he]

/-- Witness for C7 on concrete inputs: a contract request without any
provider, an error write on the freshly reset state, and a failing direct
metadata fetch. -/
theorem c7_acquisition_errors_witness :
    fetchFromContract "0xabc" "1" "" false (fun _ => .ok "ipfs://m")
        (fun _ => .ok {}) false = .wroteError noProviderMsg
    ∧ (applyOutcome resetState (.wroteError "boom")).metadata = none
    ∧ (applyOutcome resetState (.wroteError "boom")).error = some "boom"
    ∧ fetchFromMetadataUrl "https://m" (fun _ => .error "net down") false
        = .wroteError "net down" := by
  refine ⟨?_, ?_, ?_, ?_⟩
  · exact c7_acquisition_errors.1 "0xabc" "1" (fun _ => .ok "ipfs://m")
      (fun _ => .ok {}) false (by decide) (by decide)
  · exact (c7_acquisition_errors.2.1 resetState "boom").1
  · exact (c7_acquisition_errors.2.1 resetState "boom").2
  · exact c7_acquisition_errors.2.2 "https://m" (fun _ => .error "net down")
      false "net down" (by decide) rfl

/-! ## Claim C8: quick actions on an empty asset URL -/

/-- Counterexample to C8 as stated: with an empty asset URL, neither click
handler is a no-op — the open action still opens a new browsing context on
the empty URL, and (when the clipboard API is available) the copy action
still writes the empty string to the clipboard. -/
theorem c8_actions_counterexample :
    openHandler "" = [.windowOpen "" "_blank"]
    ∧ openHandler "" ≠ []
    ∧ copyHandler true "" = [.clipboardWrite ""]
    ∧ copyHandler true "" ≠ [] := by
  exact ⟨rfl, by decide, rfl, by decide⟩

/-- Claim C8 (amended): the two handlers do not guard on emptiness.  With an
empty asset URL the copy action writes the empty string to the clipboard —
it is a no-op only when the clipboard API is unavailable (the optional
chaining) — and the open action always opens a new browsing context on the
empty URL. -/
theorem c8_actions_amended :
    copyHandler true "" = [.clipboardWrite ""]
    ∧ copyHandler false "" = []
    ∧ openHandler "" = [.windowOpen "" "_blank"] :=
  ⟨rfl, rfl, rfl⟩

/-! ## Claim C9: acquisition-variant dispatch -/

/-- Claim C9: a present (non-empty) direct metadata URL selects Variant A
exclusively; with no direct URL, Variant B is selected exactly when both the
contract address and the token id are non-empty. -/
theorem c9_variant_dispatch :
    (∀ mu ca tid : String, mu ≠ "" → chooseVariant mu ca tid = some .directUrl)
    ∧ (∀ ca tid : String,
        chooseVariant "" ca tid = some .contractLookup ↔ ca ≠ "" ∧ tid ≠ "") := by
  constructor
  · intro mu ca tid h
    unfold chooseVariant
    rw [if_pos h]
  · intro ca tid
    constructor
    · intro h
      unfold chooseVariant at h
      rw [if_neg (by simp)] at h
      by_cases hb : ca ≠ "" ∧ tid ≠ ""
      · exact hb
      · rw [if_neg hb] at h
        exact absurd h (by simp)
    · intro hb
      unfold chooseVariant
      rw [if_neg (by simp), if_pos hb]

/-- Witness for C9 on concrete inputs. -/
theorem c9_variant_dispatch_witness :
    chooseVariant "https://m" "0xabc" "1" = some .directUrl
    ∧ chooseVariant "" "0xabc" "1" = some .contractLookup := by
  constructor
  · exact c9_variant_dispatch.1 "https://m" "0xabc" "1" (by decide)
  · exact (c9_variant_dispatch.2 "0xabc" "1").mpr ⟨by decide, by decide⟩

/-- Claim C5: URL normalization is idempotent —
`ipfsToHttp (ipfsToHttp u) = ipfsToHttp u` for every string `u`. -/
theorem c5_normalization_idempotent (u : String) :
    ipfsToHttp (ipfsToHttp u) = ipfsToHttp u := by
  cases hp : isPrefixL ipfsScheme u.data with
  | false => rw [ipfsToHttp_of_not_scheme u hp, ipfsToHttp_of_not_scheme u hp]
  | true =>
    rw [ipfsToHttp_of_scheme u hp]
    exact ipfsToHttp_of_not_scheme _ (scheme_not_after_gateway _)
